import Mathlib

/-!
Verification of the feishu channel plugin core against its specification.

The development shallowly embeds the plugin's event-deduplication cache,
sender allow-list check, group-command parser and executor, broadcast
fan-out, and connection registry.  Stateful code is embedded as explicit
state passing (the JS `Map` becomes an insertion-ordered association list),
`Date.now()` becomes an explicit `now : Nat` parameter, and outbound API
calls become values of an environment record: a settled response
(`Except.ok`) or a thrown transport error (`Except.error`).  Which
group-mutation operations a command execution actually invokes is tracked
as an explicit list of call markers.
-/

namespace MoltbotFeishu

/-- JS truthiness of a `string | undefined` value: `undefined` and the empty
string are falsy, every other string is truthy. -/
def optStrTruthy : Option String → Bool
  | none => false
  | some s => !(s == "")

/-- Rendering of a `string | undefined` value inside a JS template literal
(`undefined` prints as the literal text `undefined`). -/
def jsShowOptStr : Option String → String
  | none => "undefined"
  | some s => s

/-- Rendering of a `number | undefined` value inside a JS template literal. -/
def jsShowOptNat : Option Nat → String
  | none => "undefined"
  | some n => toString n

/-- JS `Map<string, number>` membership test (`map.has(k)`). -/
def hasKey (m : List (String × Nat)) (k : String) : Bool :=
  m.any (fun e => e.1 == k)

/-- JS `Map<string, number>` lookup (`map.get(k)`). -/
def mapGet (m : List (String × Nat)) (k : String) : Option Nat :=
  (m.find? (fun e => e.1 == k)).map (fun e => e.2)

/-- JS `Map<string, number>` insertion (`map.set(k, v)`): updates the
existing entry in place, otherwise appends in insertion order. -/
def mapSet (m : List (String × Nat)) (k : String) (v : Nat) : List (String × Nat) :=
  if hasKey m k then m.map (fun e => if e.1 == k then (k, v) else e)
  else m ++ [(k, v)]

/-- JS `Map<string, number>` removal (`map.delete(k)`). -/
def mapDelete (m : List (String × Nat)) (k : String) : List (String × Nat) :=
  m.filter (fun e => !(e.1 == k))

/-- The process-wide `processedEventIds` map of `monitor.ts`. -/
abbrev DedupCache := List (String × Nat)

/-- `EVENT_DEDUP_TTL` of `monitor.ts`: entries expire after 60 seconds. -/
def EVENT_DEDUP_TTL : Nat := 60000

/-- `cleanupExpiredEventIds` of `monitor.ts`: removes every entry whose age
strictly exceeds the TTL at time `now`. -/
def cleanupExpiredEventIds (now : Nat) (cache : DedupCache) : DedupCache :=
  cache.filter (fun e => !(decide (now - e.2 > EVENT_DEDUP_TTL)))

/-- `isEventProcessed` of `monitor.ts`.  The `string | undefined` argument is
an `Option String`; JS `!eventId` is true for `undefined` and for the empty
string.  Returns the boolean result together with the updated cache. -/
def isEventProcessed (eventId : Option String) (now : Nat) (cache : DedupCache) :
    Bool × DedupCache :=
  match eventId with
  | none => (false, cache)
  | some id =>
    if id = "" then (false, cache)
    else if hasKey cache id then (true, cache)
    else (false, cleanupExpiredEventIds now (mapSet cache id now))

/-- A sequence of further `isEventProcessed` calls (event id, call time)
threaded through the cache state. -/
def runCalls (calls : List (Option String × Nat)) (cache : DedupCache) : DedupCache :=
  calls.foldl (fun c p => (isEventProcessed p.1 p.2 c).2) cache

theorem hasKey_of_mem {m : List (String × Nat)} {e : String} {ts : Nat}
    (h : (e, ts) ∈ m) : hasKey m e = true := by
  unfold hasKey
  exact List.any_eq_true.mpr ⟨(e, ts), h, by simp⟩

theorem mem_cleanup {now : Nat} {cache : DedupCache} {p : String × Nat}
    (hmem : p ∈ cache) (hfresh : now - p.2 ≤ EVENT_DEDUP_TTL) :
    p ∈ cleanupExpiredEventIds now cache := by
  unfold cleanupExpiredEventIds
  refine List.mem_filter.mpr ⟨hmem, ?_⟩
  simp [Nat.not_lt.mpr hfresh]

/-- An entry whose age stays within the TTL survives one further
`isEventProcessed` call made at time `t`. -/
theorem entry_survives_call {e : String} {ts : Nat} (evt : Option String) (t : Nat)
    {cache : DedupCache} (hmem : (e, ts) ∈ cache) (ht : t ≤ ts + EVENT_DEDUP_TTL) :
    (e, ts) ∈ (isEventProcessed evt t cache).2 := by
  cases evt with
  | none => exact hmem
  | some id =>
    unfold isEventProcessed
    by_cases hid : id = ""
    · simpa [hid] using hmem
    · by_cases hkey : hasKey cache id = true
      · simpa [hid, hkey] using hmem
      · have hne : ¬(id = e) := by
          intro heq
          exact hkey (heq ▸ hasKey_of_mem hmem)
        simp only [hid, hkey, if_neg, if_false, Bool.false_eq_true, ite_false]
        have hset : (e, ts) ∈ mapSet cache id t := by
          unfold mapSet
          rw [if_neg (by simp [hkey])]
          exact List.mem_append_left _ hmem
        exact mem_cleanup hset (by omega)

/-- An entry whose age stays within the TTL survives any sequence of further
`isEventProcessed` calls whose times stay within the entry's TTL window. -/
theorem entry_survives_runCalls {e : String} {ts : Nat}
    (calls : List (Option String × Nat))
    (hts : ∀ p ∈ calls, p.2 ≤ ts + EVENT_DEDUP_TTL) :
    ∀ {cache : DedupCache}, (e, ts) ∈ cache → (e, ts) ∈ runCalls calls cache := by
  induction calls with
  | nil => intro cache h; exact h
  | cons p rest ih =>
    intro cache h
    have h1 : (e, ts) ∈ (isEventProcessed p.1 p.2 cache).2 :=
      entry_survives_call p.1 p.2 h (hts p (List.mem_cons_self p rest))
    exact ih (fun q hq => hts q (List.mem_cons_of_mem p hq)) h1

/-- C1: for a non-empty event identifier `e` not yet in the cache, the first
call to `isEventProcessed` (at time `t0`) returns `false`, and any subsequent
call with `e` made within the 60-second TTL of the first call returns `true`,
even with arbitrary other `isEventProcessed` calls (at times within the same
window) in between. -/
theorem isEventProcessed_first_false_then_true
    (e : String) (he : e ≠ "") (c0 : DedupCache)
    (habsent : hasKey c0 e = false)
    (t0 t1 : Nat) (calls : List (Option String × Nat))
    (hcalls : ∀ p ∈ calls, p.2 ≤ t0 + EVENT_DEDUP_TTL)
    (ht1 : t1 ≤ t0 + EVENT_DEDUP_TTL) :
    (isEventProcessed (some e) t0 c0).1 = false ∧
    (isEventProcessed (some e) t1 (runCalls calls (isEventProcessed (some e) t0 c0).2)).1 =
      true := by
  have hfirst : isEventProcessed (some e) t0 c0 =
      (false, cleanupExpiredEventIds t0 (mapSet c0 e t0)) := by
    unfold isEventProcessed
    simp [he, habsent]
  constructor
  · rw [hfirst]
  · have hmem0 : (e, t0) ∈ mapSet c0 e t0 := by
      unfold mapSet
      rw [if_neg (by simp [habsent])]
      exact List.mem_append_right _ (by simp)
    have hmem1 : (e, t0) ∈ cleanupExpiredEventIds t0 (mapSet c0 e t0) :=
      mem_cleanup hmem0 (by omega)
    have hmem2 : (e, t0) ∈ runCalls calls (cleanupExpiredEventIds t0 (mapSet c0 e t0)) :=
      entry_survives_runCalls calls hcalls hmem1
    rw [hfirst]
    unfold isEventProcessed
    simp [he, hasKey_of_mem hmem2]

theorem isEventProcessed_first_false_then_true_witness :
    (isEventProcessed (some "evt1") 1000 []).1 = false ∧
    (isEventProcessed (some "evt1") 61000
      (runCalls [(some "evt2", 2000), (none, 3000)]
        (isEventProcessed (some "evt1") 1000 []).2)).1 = true :=
  isEventProcessed_first_false_then_true "evt1" (by decide) [] (by decide)
    1000 61000 [(some "evt2", 2000), (none, 3000)]
    (by intro p hp; fin_cases hp <;> decide) (by decide)

/-- C2 counterexample: a call whose event identifier is already present in the
cache returns early and performs no sweep, so an entry older than the TTL
survives the call.  At time 200000, entry `("old", 0)` has age
200000 > 60000 = TTL, yet calling `isEventProcessed` with the already-present
identifier `"x"` leaves the cache (including the expired entry) unchanged. -/
theorem isEventProcessed_no_sweep_on_duplicate :
    (isEventProcessed (some "x") 200000 [("old", 0), ("x", 100)]).2 =
      [("old", 0), ("x", 100)] ∧
    200000 - 0 > EVENT_DEDUP_TTL := by
  constructor
  · decide
  · decide

/-- C2 (amended): the expired-entry sweep runs only on calls that record a new
non-empty event identifier — after such a call no entry in the cache has age
exceeding the TTL; calls with an absent identifier or an already-present
identifier return early and leave the cache entirely unchanged. -/
theorem isEventProcessed_sweep_policy :
    (∀ (e : String) (t : Nat) (c : DedupCache), e ≠ "" → hasKey c e = false →
       ∀ p ∈ (isEventProcessed (some e) t c).2, t - p.2 ≤ EVENT_DEDUP_TTL) ∧
    (∀ (t : Nat) (c : DedupCache), (isEventProcessed none t c).2 = c) ∧
    (∀ (e : String) (t : Nat) (c : DedupCache), hasKey c e = true →
       (isEventProcessed (some e) t c).2 = c) := by
  refine ⟨?_, ?_, ?_⟩
  · intro e t c he habsent p hp
    unfold isEventProcessed at hp
    simp only [he, habsent, Bool.false_eq_true, if_false, ite_false] at hp
    have := (List.mem_filter.mp hp).2
    simp only [Bool.not_eq_true', decide_eq_false_iff_not, Nat.not_lt] at this
    exact this
  · intro t c
    rfl
  · intro e t c hkey
    unfold isEventProcessed
    by_cases he : e = "" <;> simp [he, hkey]

theorem isEventProcessed_sweep_policy_witness :
    (∀ p ∈ (isEventProcessed (some "new") 200000 [("old", 0)]).2,
       200000 - p.2 ≤ EVENT_DEDUP_TTL) ∧
    (isEventProcessed (some "x") 200000 [("old", 0), ("x", 100)]).2 =
      [("old", 0), ("x", 100)] :=
  ⟨isEventProcessed_sweep_policy.1 "new" 200000 [("old", 0)] (by decide) (by decide),
   isEventProcessed_sweep_policy.2.2 "x" 200000 [("old", 0), ("x", 100)] (by decide)⟩

/-- C9: a call with an absent event identifier (`undefined` or the empty
string) returns `false` and leaves the dedup cache completely unchanged. -/
theorem isEventProcessed_absent_no_mutation :
    ∀ (t : Nat) (c : DedupCache),
      isEventProcessed none t c = (false, c) ∧
      isEventProcessed (some "") t c = (false, c) := by
  intro t c
  constructor
  · rfl
  · unfold isEventProcessed
    simp

/-- JS whitespace characters relevant to `String.prototype.trim` (the model
restricts itself to the ASCII whitespace the plugin's inputs use). -/
def isJsWhitespace (c : Char) : Bool :=
  c == ' ' || c == '\t' || c == '\n' || c == '\r'

/-- JS `text.trim()`: removes leading and trailing whitespace. -/
def jsTrim (s : String) : String :=
  ⟨((s.data.dropWhile isJsWhitespace).reverse.dropWhile isJsWhitespace).reverse⟩

/-- Character-list prefix test backing `jsStartsWith`. -/
def charListIsPrefixOf : List Char → List Char → Bool
  | [], _ => true
  | _ :: _, [] => false
  | p :: ps, c :: cs => p == c && charListIsPrefixOf ps cs

/-- JS `text.startsWith(p)`. -/
def jsStartsWith (s p : String) : Bool :=
  charListIsPrefixOf p.data s.data

/-- JS `text.length` (all strings in this development stay within the basic
multilingual plane, where UTF-16 length and codepoint count coincide). -/
def jsLen (s : String) : Nat :=
  s.data.length

/-- JS `text.slice(n)` (same BMP caveat as `jsLen`). -/
def jsDropChars (s : String) (n : Nat) : String :=
  ⟨s.data.drop n⟩

/-- JS `text.toLowerCase()` restricted to ASCII case folding (the identifier
prefixes the plugin lowercases are ASCII; CJK text has no case). -/
def jsToLower (s : String) : String :=
  ⟨s.data.map Char.toLower⟩

/-- The sender-id normalization inside `isSenderAllowed` of `monitor.ts`:
`x.toLowerCase().replace(/^(feishu|user|ou_):/i, "")` — lowercase, then strip
a single leading `feishu:`, `user:` or `ou_:` prefix (the regex is anchored
and applied once, and after lowercasing its case-insensitivity is literal
matching of the lowercase prefixes). -/
def normalizeFeishuId (s : String) : String :=
  let l := jsToLower s
  if jsStartsWith l "feishu:" then jsDropChars l 7
  else if jsStartsWith l "user:" then jsDropChars l 5
  else if jsStartsWith l "ou_:" then jsDropChars l 4
  else l

/-- `isSenderAllowed` of `monitor.ts`: allow-all when the allow-list is
`undefined` or empty, otherwise membership up to id normalization. -/
def isSenderAllowed (senderId : String) (allowFrom : Option (List String)) : Bool :=
  match allowFrom with
  | none => true
  | some allowList =>
    if allowList.length = 0 then true
    else
      let normalizedSenderId := normalizeFeishuId senderId
      allowList.any (fun entry => normalizeFeishuId entry == normalizedSenderId)

/-- C10: `isSenderAllowed` returns `true` whenever the allow-list is absent or
empty; otherwise it returns `true` exactly when some allow-list entry equals
the sender id after both sides are lowercased and a single leading `feishu:`,
`user:` or `ou_:` prefix (matched case-insensitively) is stripped from
each — i.e. after `normalizeFeishuId` is applied to each side. -/
theorem isSenderAllowed_spec :
    (∀ s : String, isSenderAllowed s none = true) ∧
    (∀ s : String, isSenderAllowed s (some []) = true) ∧
    (∀ (s : String) (allowList : List String), allowList ≠ [] →
       (isSenderAllowed s (some allowList) = true ↔
         ∃ entry ∈ allowList, normalizeFeishuId entry = normalizeFeishuId s)) := by
  refine ⟨fun s => rfl, fun s => rfl, ?_⟩
  intro s allowList hne
  have hlen : ¬allowList.length = 0 := by simpa using hne
  simp [isSenderAllowed, hlen, List.any_eq_true]

theorem isSenderAllowed_spec_witness :
    isSenderAllowed "FEISHU:Abc" (some ["user:aBC", "other"]) = true :=
  (isSenderAllowed_spec.2.2 "FEISHU:Abc" ["user:aBC", "other"] (by decide)).mpr
    ⟨"user:aBC", by decide, by decide⟩

/-- `CommandType` of `types.ts`: the closed set of group-command kinds. -/
inductive CommandType where
  | announcement
  | add_member
  | remove_member
  | list_members
deriving DecidableEq

/-- `COMMAND_PREFIXES` of `commands.ts`, in `Object.entries` (insertion)
order: per command type the ordered list of literal aliases. -/
def COMMAND_PREFIXES : List (CommandType × List String) :=
  [(.announcement, ["/公告", "/announcement"]),
   (.add_member, ["/拉人", "/add"]),
   (.remove_member, ["/踢人", "/kick", "/remove"]),
   (.list_members, ["/成员", "/members"])]

/-- A mention entry of a message event; `openId` models `m.id?.open_id`. -/
structure Mention where
  openId : Option String
deriving DecidableEq

/-- `ParsedCommand` of `types.ts`. -/
structure ParsedCommand where
  type : CommandType
  args : String
  mentionedUserIds : List String
deriving DecidableEq

/-- The mention extraction inside `parseCommand`:
`mentions.filter((m) => m.id?.open_id).map((m) => m.id!.open_id!)` — keep
only mentions whose open id is present and truthy (non-empty). -/
def mentionedIdsOf (mentions : List Mention) : List String :=
  (mentions.filter (fun m => optStrTruthy m.openId)).map (fun m => m.openId.getD "")

/-- The nested prefix scan of `parseCommand`: outer loop over command types in
entry order, inner loop over that type's aliases, first `startsWith` hit
wins. -/
def matchCommand (t : String) : List (CommandType × List String) → Option (CommandType × String)
  | [] => none
  | (cmdType, aliases) :: rest =>
    match aliases.find? (fun p => jsStartsWith t p) with
    | some p => some (cmdType, p)
    | none => matchCommand t rest

/-- `parseCommand` of `commands.ts`: trim the text, scan the prefix table,
and on a hit return the command type, the text after the prefix (trimmed),
and the mentioned user ids. -/
def parseCommand (text : String) (mentions : List Mention) : Option ParsedCommand :=
  let trimmedText := jsTrim text
  match matchCommand trimmedText COMMAND_PREFIXES with
  | some (cmdType, p) =>
    some { type := cmdType,
           args := jsTrim (jsDropChars trimmedText (jsLen p)),
           mentionedUserIds := mentionedIdsOf mentions }
  | none => none

/-- Modelled from the claim's wording: the flat ordered prefix table
(category-then-alias order) with each alias mapped to its command type. -/
def specCommandTable : List (String × CommandType) :=
  [("/公告", .announcement), ("/announcement", .announcement),
   ("/拉人", .add_member), ("/add", .add_member),
   ("/踢人", .remove_member), ("/kick", .remove_member), ("/remove", .remove_member),
   ("/成员", .list_members), ("/members", .list_members)]

/-- Modelled from the claim's wording: a command is returned exactly when the
trimmed text starts character-for-character at position 0 with one of the
fixed literal prefixes, tried in category-then-alias order; the first match
determines the type, and `args` is the remaining text trimmed. -/
def parseCommandSpec (text : String) (mentions : List Mention) : Option ParsedCommand :=
  let t := jsTrim text
  match specCommandTable.find? (fun pr => jsStartsWith t pr.1) with
  | some pr =>
    some { type := pr.2,
           args := jsTrim (jsDropChars t (jsLen pr.1)),
           mentionedUserIds := mentionedIdsOf mentions }
  | none => none

/-- C3: `parseCommand` agrees with the claim's description on every input
(first matching literal prefix in category-then-alias order anchored at
position 0 of the trimmed text, remainder trimmed as `args`, no word-boundary
requirement), and on the claim's three concrete examples: "/公告世界" parses
as an announcement with args "世界", while "公告内容" and "请/公告 x" are not
commands. -/
theorem parseCommand_spec :
    (∀ (text : String) (mentions : List Mention),
       parseCommand text mentions = parseCommandSpec text mentions) ∧
    parseCommand "/公告世界" [] =
      some { type := .announcement, args := "世界", mentionedUserIds := [] } ∧
    parseCommand "公告内容" [] = none ∧
    parseCommand "请/公告 x" [] = none := by
  refine ⟨?_, by decide, by decide, by decide⟩
  intro text mentions
  by_cases h1 : jsStartsWith (jsTrim text) "/公告" = true
  · simp [parseCommand, parseCommandSpec, matchCommand, COMMAND_PREFIXES, specCommandTable, h1]
  · by_cases h2 : jsStartsWith (jsTrim text) "/announcement" = true
    · simp [parseCommand, parseCommandSpec, matchCommand, COMMAND_PREFIXES, specCommandTable,
        h1, h2]
    · by_cases h3 : jsStartsWith (jsTrim text) "/拉人" = true
      · simp [parseCommand, parseCommandSpec, matchCommand, COMMAND_PREFIXES, specCommandTable,
          h1, h2, h3]
      · by_cases h4 : jsStartsWith (jsTrim text) "/add" = true
        · simp [parseCommand, parseCommandSpec, matchCommand, COMMAND_PREFIXES, specCommandTable,
            h1, h2, h3, h4]
        · by_cases h5 : jsStartsWith (jsTrim text) "/踢人" = true
          · simp [parseCommand, parseCommandSpec, matchCommand, COMMAND_PREFIXES,
              specCommandTable, h1, h2, h3, h4, h5]
          · by_cases h6 : jsStartsWith (jsTrim text) "/kick" = true
            · simp [parseCommand, parseCommandSpec, matchCommand, COMMAND_PREFIXES,
                specCommandTable, h1, h2, h3, h4, h5, h6]
            · by_cases h7 : jsStartsWith (jsTrim text) "/remove" = true
              · simp [parseCommand, parseCommandSpec, matchCommand, COMMAND_PREFIXES,
                  specCommandTable, h1, h2, h3, h4, h5, h6, h7]
              · by_cases h8 : jsStartsWith (jsTrim text) "/成员" = true
                · simp [parseCommand, parseCommandSpec, matchCommand, COMMAND_PREFIXES,
                    specCommandTable, h1, h2, h3, h4, h5, h6, h7, h8]
                · by_cases h9 : jsStartsWith (jsTrim text) "/members" = true
                  · simp [parseCommand, parseCommandSpec, matchCommand, COMMAND_PREFIXES,
                      specCommandTable, h1, h2, h3, h4, h5, h6, h7, h8, h9]
                  · simp [parseCommand, parseCommandSpec, matchCommand, COMMAND_PREFIXES,
                      specCommandTable, h1, h2, h3, h4, h5, h6, h7, h8, h9]

/-- Response body of the get-chat-info request inside `getGroupInfo` of
`api.ts` (all fields optional, as in the TS cast). -/
structure ChatInfoResp where
  code : Option Nat
  msg : Option String
  owner_id : Option String
  name : Option String
deriving DecidableEq

/-- One entry of the chat-managers response inside `isUserGroupAdmin`. -/
structure ManagerItem where
  manager_id : Option String
deriving DecidableEq

/-- Response body of the list-chat-managers request inside
`isUserGroupAdmin` of `api.ts`. -/
structure ManagersResp where
  code : Option Nat
  msg : Option String
  items : Option (List ManagerItem)
deriving DecidableEq

/-- Response body of the add-chat-members request inside `addMembersToGroup`
of `api.ts`. -/
structure AddMembersResp where
  code : Option Nat
  msg : Option String
  invalid_id_list : Option (List String)
  not_existed_id_list : Option (List String)
deriving DecidableEq

/-- Response body of the delete-chat-members request inside
`removeMembersFromGroup` of `api.ts`. -/
structure RemoveMembersResp where
  code : Option Nat
  msg : Option String
  invalid_id_list : Option (List String)
deriving DecidableEq

/-- One entry of `getGroupMembers`'s result list. -/
structure GroupMemberEntry where
  memberId : String
  name : Option String
deriving DecidableEq

/-- Result record of `getGroupMembers` of `api.ts`. -/
structure GroupMembersResult where
  members : List GroupMemberEntry
  error : Option String
deriving DecidableEq

/-- Result record of `updateGroupAnnouncement` of `api.ts`. -/
structure UpdateAnnouncementResult where
  success : Bool
  error : Option String
deriving DecidableEq

/-- The outbound-API environment a command execution runs against.  A field
of type `Except String resp` models one REST call: `Except.ok` is a settled
response body, `Except.error` a thrown transport error (which the TS code
catches at the call boundary).  `updateGroupAnnouncement` and
`getGroupMembers` are total record-returning collaborators in the source
(they catch every exception internally), so the environment carries their
result records directly. -/
structure ApiEnv where
  getGroupInfoT : Except String ChatInfoResp
  getManagersT : Except String ManagersResp
  addMembersT : Except String AddMembersResp
  removeMembersT : Except String RemoveMembersResp
  updateGroupAnnouncementR : UpdateAnnouncementResult
  getGroupMembersR : GroupMembersResult

/-- Result record of `getGroupInfo` of `api.ts`. -/
structure GroupInfoResult where
  ownerId : Option String
  name : Option String
  error : Option String
deriving DecidableEq

/-- `getGroupInfo` of `api.ts`: on a thrown transport error or a non-zero
response code, an error record; otherwise the owner id and name. -/
def getGroupInfo (env : ApiEnv) : GroupInfoResult :=
  match env.getGroupInfoT with
  | .error e => { ownerId := none, name := none, error := some e }
  | .ok resp =>
    if resp.code ≠ some 0 then
      { ownerId := none, name := none,
        error := some (resp.msg.getD ("Feishu API error: " ++ jsShowOptNat resp.code)) }
    else
      { ownerId := resp.owner_id, name := resp.name, error := none }

/-- Result record of `isUserGroupAdmin` of `api.ts`. -/
structure PermResult where
  isAdmin : Bool
  isOwner : Bool
  error : Option String
deriving DecidableEq

/-- `isUserGroupAdmin` of `api.ts`: owner check via the chat info, then
(if not owner) membership in the chat-managers list.  Note the JS truthiness
test `if (groupInfo.error)` and that the managers-failure branch forwards
`response.msg` unchanged (possibly `undefined`). -/
def isUserGroupAdmin (env : ApiEnv) (userId : String) : PermResult :=
  let groupInfo := getGroupInfo env
  if optStrTruthy groupInfo.error then
    { isAdmin := false, isOwner := false, error := groupInfo.error }
  else
    let isOwner := groupInfo.ownerId == some userId
    if isOwner then
      { isAdmin := true, isOwner := true, error := none }
    else
      match env.getManagersT with
      | .error e => { isAdmin := false, isOwner := false, error := some e }
      | .ok resp =>
        if resp.code ≠ some 0 then
          { isAdmin := false, isOwner := false, error := resp.msg }
        else
          let managers := resp.items.getD []
          { isAdmin := managers.any (fun m => m.manager_id == some userId),
            isOwner := false, error := none }

/-- Result record of `addMembersToGroup` / `removeMembersFromGroup`. -/
structure MemberOpResult where
  success : Bool
  invalidIds : Option (List String)
  error : Option String
deriving DecidableEq

/-- `addMembersToGroup` of `api.ts`: empty id list short-circuits; a thrown
transport error or non-zero code yields a failure record; success merges the
`invalid_id_list` and `not_existed_id_list` response fields, reporting them
only when non-empty. -/
def addMembersToGroup (memberIds : List String) (transport : Except String AddMembersResp) :
    MemberOpResult :=
  if memberIds.length = 0 then
    { success := false, invalidIds := none, error := some "没有指定要添加的用户" }
  else
    match transport with
    | .error e => { success := false, invalidIds := none, error := some e }
    | .ok resp =>
      if resp.code ≠ some 0 then
        { success := false, invalidIds := none,
          error := some (resp.msg.getD ("Feishu API error: " ++ jsShowOptNat resp.code)) }
      else
        let invalidIds := (resp.invalid_id_list.getD []) ++ (resp.not_existed_id_list.getD [])
        { success := true,
          invalidIds := if invalidIds.length > 0 then some invalidIds else none,
          error := none }

/-- `removeMembersFromGroup` of `api.ts`: like `addMembersToGroup`, but the
success record passes `invalid_id_list` through unchanged. -/
def removeMembersFromGroup (memberIds : List String)
    (transport : Except String RemoveMembersResp) : MemberOpResult :=
  if memberIds.length = 0 then
    { success := false, invalidIds := none, error := some "没有指定要移除的用户" }
  else
    match transport with
    | .error e => { success := false, invalidIds := none, error := some e }
    | .ok resp =>
      if resp.code ≠ some 0 then
        { success := false, invalidIds := none,
          error := some (resp.msg.getD ("Feishu API error: " ++ jsShowOptNat resp.code)) }
      else
        { success := true, invalidIds := resp.invalid_id_list, error := none }

/-- `CommandContext` of `types.ts` (the fields `executeCommand` reads). -/
structure CommandContext where
  chatId : String
  senderId : String
deriving DecidableEq

/-- `CommandResult` of `types.ts`. -/
structure CommandResult where
  success : Bool
  message : String
deriving DecidableEq

/-- Marker for one invocation of a group-management API operation, recorded
by the executor embedding to make "the operation was (never) invoked"
provable. -/
inductive GroupApiCall where
  | updateAnnouncement
  | addMembers
  | removeMembers
  | listMembers
deriving DecidableEq

/-- `ADMIN_REQUIRED_COMMANDS` of `commands.ts`. -/
def ADMIN_REQUIRED_COMMANDS : List CommandType :=
  [.announcement, .add_member, .remove_member]

/-- `requiresAdminPermission` of `commands.ts`. -/
def requiresAdminPermission (cmdType : CommandType) : Bool :=
  ADMIN_REQUIRED_COMMANDS.contains cmdType

/-- `executeAnnouncementCommand` of `commands.ts`. -/
def executeAnnouncementCommand (env : ApiEnv) (content : String) :
    CommandResult × List GroupApiCall :=
  if jsTrim content = "" then
    ({ success := false, message := "请提供公告内容。用法：/公告 <公告内容>" }, [])
  else
    let result := env.updateGroupAnnouncementR
    if result.success then
      ({ success := true, message := "群公告已更新。" }, [.updateAnnouncement])
    else
      ({ success := false, message := "更新公告失败：" ++ jsShowOptStr result.error },
       [.updateAnnouncement])

/-- `executeAddMemberCommand` of `commands.ts`. -/
def executeAddMemberCommand (env : ApiEnv) (memberIds : List String) :
    CommandResult × List GroupApiCall :=
  if memberIds.length = 0 then
    ({ success := false, message := "请@要拉入群聊的用户。用法：/拉人 @用户1 @用户2" }, [])
  else
    let result := addMembersToGroup memberIds env.addMembersT
    if result.success then
      let invalidNote :=
        match result.invalidIds with
        | some ids =>
          if ids.length > 0 then "（" ++ toString ids.length ++ " 个用户无效或已在群内）" else ""
        | none => ""
      ({ success := true,
         message := "已拉入 " ++ toString memberIds.length ++ " 个用户" ++ invalidNote },
       [.addMembers])
    else
      ({ success := false, message := "拉人失败：" ++ jsShowOptStr result.error }, [.addMembers])

/-- `executeRemoveMemberCommand` of `commands.ts`. -/
def executeRemoveMemberCommand (env : ApiEnv) (memberIds : List String) :
    CommandResult × List GroupApiCall :=
  if memberIds.length = 0 then
    ({ success := false, message := "请@要移除的用户。用法：/踢人 @用户" }, [])
  else
    let result := removeMembersFromGroup memberIds env.removeMembersT
    if result.success then
      let invalidNote :=
        match result.invalidIds with
        | some ids =>
          if ids.length > 0 then "（" ++ toString ids.length ++ " 个用户无效或不在群内）" else ""
        | none => ""
      ({ success := true,
         message := "已移除 " ++ toString memberIds.length ++ " 个用户" ++ invalidNote },
       [.removeMembers])
    else
      ({ success := false, message := "移除用户失败：" ++ jsShowOptStr result.error },
       [.removeMembers])

/-- `executeListMembersCommand` of `commands.ts`. -/
def executeListMembersCommand (env : ApiEnv) : CommandResult × List GroupApiCall :=
  let result := env.getGroupMembersR
  if optStrTruthy result.error then
    ({ success := false, message := "获取成员列表失败：" ++ jsShowOptStr result.error },
     [.listMembers])
  else
    let members := result.members
    if members.length = 0 then
      ({ success := true, message := "群内暂无成员信息。" }, [.listMembers])
    else
      let memberList := String.intercalate "\n"
        ((members.take 50).mapIdx (fun i m => toString (i + 1) ++ ". " ++ m.name.getD m.memberId))
      let moreNote :=
        if members.length > 50 then "\n... 共 " ++ toString members.length ++ " 人"
        else "\n共 " ++ toString members.length ++ " 人"
      ({ success := true, message := "群成员列表：\n" ++ memberList ++ moreNote }, [.listMembers])

/-- `executeCommand` of `commands.ts`: permission gate for the admin-only
command types (JS truthiness on the permission error, then the
non-admin/non-owner rejection), then dispatch on the command type.  The
second component lists the group-management API operations the execution
invoked. -/
def executeCommand (env : ApiEnv) (command : ParsedCommand) (context : CommandContext) :
    CommandResult × List GroupApiCall :=
  let runAction : CommandResult × List GroupApiCall :=
    match command.type with
    | .announcement => executeAnnouncementCommand env command.args
    | .add_member => executeAddMemberCommand env command.mentionedUserIds
    | .remove_member => executeRemoveMemberCommand env command.mentionedUserIds
    | .list_members => executeListMembersCommand env
  if requiresAdminPermission command.type then
    let permResult := isUserGroupAdmin env context.senderId
    if optStrTruthy permResult.error then
      ({ success := false, message := "权限检查失败：" ++ jsShowOptStr permResult.error }, [])
    else if !permResult.isAdmin && !permResult.isOwner then
      ({ success := false, message := "抱歉，只有群主或管理员才能执行此操作。" }, [])
    else runAction
  else runAction

theorem getGroupInfo_ok (env : ApiEnv) (gi : ChatInfoResp)
    (hgi : env.getGroupInfoT = .ok gi) (hcode : gi.code = some 0) :
    getGroupInfo env = { ownerId := gi.owner_id, name := gi.name, error := none } := by
  unfold getGroupInfo
  rw [hgi]
  simp [hcode]

theorem isUserGroupAdmin_owner (env : ApiEnv) (userId : String) (gi : ChatInfoResp)
    (hgi : env.getGroupInfoT = .ok gi) (hcode : gi.code = some 0)
    (howner : gi.owner_id = some userId) :
    isUserGroupAdmin env userId = { isAdmin := true, isOwner := true, error := none } := by
  unfold isUserGroupAdmin
  rw [getGroupInfo_ok env gi hgi hcode]
  simp [optStrTruthy, howner]

theorem isUserGroupAdmin_not_admin (env : ApiEnv) (userId : String)
    (gi : ChatInfoResp) (mg : ManagersResp)
    (hgi : env.getGroupInfoT = .ok gi) (hcode : gi.code = some 0)
    (howner : gi.owner_id ≠ some userId)
    (hmg : env.getManagersT = .ok mg) (hmcode : mg.code = some 0)
    (hnoadmin : ∀ m ∈ mg.items.getD [], m.manager_id ≠ some userId) :
    isUserGroupAdmin env userId = { isAdmin := false, isOwner := false, error := none } := by
  unfold isUserGroupAdmin
  rw [getGroupInfo_ok env gi hgi hcode]
  have h1 : (gi.owner_id == some userId) = false := by
    simpa using howner
  rw [hmg] at *
  simp only [optStrTruthy, h1, hmg, hmcode]
  simp [List.any_eq_false] at *
  intro m hm
  simpa using hnoadmin m hm

/-- With the sender being the chat owner, the permission gate passes and
`executeCommand` dispatches on the command type. -/
theorem executeCommand_owner_dispatch (env : ApiEnv) (command : ParsedCommand)
    (context : CommandContext) (gi : ChatInfoResp)
    (hgi : env.getGroupInfoT = .ok gi) (hcode : gi.code = some 0)
    (howner : gi.owner_id = some context.senderId) :
    executeCommand env command context =
      match command.type with
      | .announcement => executeAnnouncementCommand env command.args
      | .add_member => executeAddMemberCommand env command.mentionedUserIds
      | .remove_member => executeRemoveMemberCommand env command.mentionedUserIds
      | .list_members => executeListMembersCommand env := by
  have hperm := isUserGroupAdmin_owner env context.senderId gi hgi hcode howner
  unfold executeCommand
  simp [hperm, optStrTruthy]

/-- C4: for a command of type announcement, add_member or remove_member whose
sender is neither the chat owner nor in the chat's administrator list (both
permission queries succeeding with code 0), `executeCommand` returns
`success := false` with the fixed no-permission message and invokes no
group-management API operation. -/
theorem executeCommand_permission_gate (env : ApiEnv) (command : ParsedCommand)
    (context : CommandContext)
    (htype : command.type = .announcement ∨ command.type = .add_member ∨
      command.type = .remove_member)
    (gi : ChatInfoResp) (mg : ManagersResp)
    (hgi : env.getGroupInfoT = .ok gi) (hcode : gi.code = some 0)
    (howner : gi.owner_id ≠ some context.senderId)
    (hmg : env.getManagersT = .ok mg) (hmcode : mg.code = some 0)
    (hnoadmin : ∀ m ∈ mg.items.getD [], m.manager_id ≠ some context.senderId) :
    executeCommand env command context =
      ({ success := false, message := "抱歉，只有群主或管理员才能执行此操作。" }, []) := by
  have hperm := isUserGroupAdmin_not_admin env context.senderId gi mg hgi hcode howner
    hmg hmcode hnoadmin
  have hreq : requiresAdminPermission command.type = true := by
    rcases htype with h | h | h <;> simp [requiresAdminPermission, ADMIN_REQUIRED_COMMANDS, h]
  unfold executeCommand
  simp [hreq, hperm, optStrTruthy]

/-- Concrete chat-info response with owner `ou_owner`, for witnesses. -/
def giOwner : ChatInfoResp :=
  { code := some 0, msg := none, owner_id := some "ou_owner", name := none }

/-- Concrete managers response listing only `ou_admin`, for witnesses. -/
def mgAdminOnly : ManagersResp :=
  { code := some 0, msg := none, items := some [{ manager_id := some "ou_admin" }] }

/-- Concrete successful add-members response with one rejected id. -/
def addOkOneInvalid : AddMembersResp :=
  { code := some 0, msg := none, invalid_id_list := some ["ou_bad"], not_existed_id_list := none }

/-- Concrete successful add-members response with no rejected ids. -/
def addOkClean : AddMembersResp :=
  { code := some 0, msg := none, invalid_id_list := none, not_existed_id_list := none }

/-- Concrete successful remove-members response. -/
def removeOkClean : RemoveMembersResp :=
  { code := some 0, msg := none, invalid_id_list := none }

/-- Concrete environment for witnesses: sender `ou_user` is neither owner nor
admin, all API calls settle successfully. -/
def envAllOk : ApiEnv :=
  { getGroupInfoT := .ok giOwner,
    getManagersT := .ok mgAdminOnly,
    addMembersT := .ok addOkClean,
    removeMembersT := .ok removeOkClean,
    updateGroupAnnouncementR := { success := true, error := none },
    getGroupMembersR := { members := [], error := none } }

theorem executeCommand_permission_gate_witness :
    executeCommand envAllOk
      { type := .add_member, args := "", mentionedUserIds := ["ou_x"] }
      { chatId := "oc_chat", senderId := "ou_user" } =
      ({ success := false, message := "抱歉，只有群主或管理员才能执行此操作。" }, []) :=
  executeCommand_permission_gate _ _ _ (Or.inr (Or.inl rfl)) giOwner mgAdminOnly
    rfl rfl (by decide) rfl rfl (by intro m hm; fin_cases hm; decide)

/-- C5: `executeCommand` is a total function into `CommandResult` (it cannot
throw by construction), and a failure of the underlying outbound API call of
each command type — including a thrown transport error, modelled by
`Except.error` — is converted into a `success := false` result at the call
boundary rather than propagated (shown here with the permission gate passed
by the chat owner; `list_members` has no gate). -/
theorem executeCommand_converts_api_failures :
    (∀ (env : ApiEnv) (ctx : CommandContext) (args : String) (ids : List String)
       (gi : ChatInfoResp) (err : Option String),
       env.getGroupInfoT = .ok gi → gi.code = some 0 → gi.owner_id = some ctx.senderId →
       jsTrim args ≠ "" →
       env.updateGroupAnnouncementR = { success := false, error := err } →
       executeCommand env { type := .announcement, args := args, mentionedUserIds := ids } ctx =
         ({ success := false, message := "更新公告失败：" ++ jsShowOptStr err },
          [.updateAnnouncement])) ∧
    (∀ (env : ApiEnv) (ctx : CommandContext) (args : String) (ids : List String)
       (gi : ChatInfoResp) (msg : String),
       env.getGroupInfoT = .ok gi → gi.code = some 0 → gi.owner_id = some ctx.senderId →
       ids ≠ [] → env.addMembersT = .error msg →
       executeCommand env { type := .add_member, args := args, mentionedUserIds := ids } ctx =
         ({ success := false, message := "拉人失败：" ++ msg }, [.addMembers])) ∧
    (∀ (env : ApiEnv) (ctx : CommandContext) (args : String) (ids : List String)
       (gi : ChatInfoResp) (msg : String),
       env.getGroupInfoT = .ok gi → gi.code = some 0 → gi.owner_id = some ctx.senderId →
       ids ≠ [] → env.removeMembersT = .error msg →
       executeCommand env { type := .remove_member, args := args, mentionedUserIds := ids } ctx =
         ({ success := false, message := "移除用户失败：" ++ msg }, [.removeMembers])) ∧
    (∀ (env : ApiEnv) (ctx : CommandContext) (args : String) (ids : List String)
       (mems : List GroupMemberEntry) (msg : String),
       msg ≠ "" → env.getGroupMembersR = { members := mems, error := some msg } →
       executeCommand env { type := .list_members, args := args, mentionedUserIds := ids } ctx =
         ({ success := false, message := "获取成员列表失败：" ++ msg }, [.listMembers])) := by
  refine ⟨?_, ?_, ?_, ?_⟩
  · intro env ctx args ids gi err hgi hcode howner hargs hupd
    rw [executeCommand_owner_dispatch env _ ctx gi hgi hcode howner]
    simp [executeAnnouncementCommand, hargs, hupd, jsShowOptStr]
  · intro env ctx args ids gi msg hgi hcode howner hids hadd
    rw [executeCommand_owner_dispatch env _ ctx gi hgi hcode howner]
    have hlen : ¬ids.length = 0 := by simpa using hids
    simp [executeAddMemberCommand, hlen, addMembersToGroup, hadd, jsShowOptStr]
  · intro env ctx args ids gi msg hgi hcode howner hids hrem
    rw [executeCommand_owner_dispatch env _ ctx gi hgi hcode howner]
    have hlen : ¬ids.length = 0 := by simpa using hids
    simp [executeRemoveMemberCommand, hlen, removeMembersFromGroup, hrem, jsShowOptStr]
  · intro env ctx args ids mems msg hmsg hmem
    unfold executeCommand
    simp only [requiresAdminPermission, ADMIN_REQUIRED_COMMANDS]
    simp [executeListMembersCommand, hmem, optStrTruthy, hmsg, jsShowOptStr]

/-- Concrete environment for witnesses: sender `ou_owner` is the owner, every
underlying API operation fails (the membership calls by a thrown transport
error, the others by a failure result). -/
def envAllFail : ApiEnv :=
  { getGroupInfoT := .ok giOwner,
    getManagersT := .ok mgAdminOnly,
    addMembersT := .error "ECONNRESET",
    removeMembersT := .error "ETIMEDOUT",
    updateGroupAnnouncementR := { success := false, error := some "permission denied" },
    getGroupMembersR := { members := [], error := some "forbidden" } }

theorem executeCommand_converts_api_failures_witness :
    executeCommand envAllFail
      { type := .announcement, args := "hello", mentionedUserIds := [] }
      { chatId := "oc_chat", senderId := "ou_owner" } =
      ({ success := false, message := "更新公告失败：permission denied" },
       [.updateAnnouncement]) ∧
    executeCommand envAllFail
      { type := .add_member, args := "", mentionedUserIds := ["ou_x"] }
      { chatId := "oc_chat", senderId := "ou_owner" } =
      ({ success := false, message := "拉人失败：ECONNRESET" }, [.addMembers]) ∧
    executeCommand envAllFail
      { type := .remove_member, args := "", mentionedUserIds := ["ou_x"] }
      { chatId := "oc_chat", senderId := "ou_owner" } =
      ({ success := false, message := "移除用户失败：ETIMEDOUT" }, [.removeMembers]) ∧
    executeCommand envAllFail
      { type := .list_members, args := "", mentionedUserIds := [] }
      { chatId := "oc_chat", senderId := "ou_owner" } =
      ({ success := false, message := "获取成员列表失败：forbidden" }, [.listMembers]) :=
  ⟨executeCommand_converts_api_failures.1 _ _ "hello" [] giOwner (some "permission denied")
      rfl rfl rfl (by decide) rfl,
   executeCommand_converts_api_failures.2.1 _ _ "" ["ou_x"] giOwner "ECONNRESET"
      rfl rfl rfl (by decide) rfl,
   executeCommand_converts_api_failures.2.2.1 _ _ "" ["ou_x"] giOwner "ETIMEDOUT"
      rfl rfl rfl (by decide) rfl,
   executeCommand_converts_api_failures.2.2.2 _ _ "" [] [] "forbidden"
      (by decide) rfl⟩

/-- The invalid-ids note of a successful add-members call, as built by
`executeAddMemberCommand` from the response's `invalid_id_list` and
`not_existed_id_list`. -/
def addInvalidNote (resp : AddMembersResp) : String :=
  let inv := (resp.invalid_id_list.getD []) ++ (resp.not_existed_id_list.getD [])
  if inv.length > 0 then "（" ++ toString inv.length ++ " 个用户无效或已在群内）" else ""

/-- C6: with the permission gate passed (chat owner), an add_member command
with no mentioned users fails with the usage-hint message and invokes no API
operation; with at least one mentioned user and a successful add-members API
call it succeeds, the member count appearing in the message, with
platform-rejected ids noted without failing the result. -/
theorem executeCommand_add_member_spec :
    (∀ (env : ApiEnv) (ctx : CommandContext) (args : String) (gi : ChatInfoResp),
       env.getGroupInfoT = .ok gi → gi.code = some 0 → gi.owner_id = some ctx.senderId →
       executeCommand env { type := .add_member, args := args, mentionedUserIds := [] } ctx =
         ({ success := false, message := "请@要拉入群聊的用户。用法：/拉人 @用户1 @用户2" },
          [])) ∧
    (∀ (env : ApiEnv) (ctx : CommandContext) (args : String) (ids : List String)
       (gi : ChatInfoResp) (resp : AddMembersResp),
       env.getGroupInfoT = .ok gi → gi.code = some 0 → gi.owner_id = some ctx.senderId →
       ids ≠ [] → env.addMembersT = .ok resp → resp.code = some 0 →
       executeCommand env { type := .add_member, args := args, mentionedUserIds := ids } ctx =
         ({ success := true,
            message := "已拉入 " ++ toString ids.length ++ " 个用户" ++ addInvalidNote resp },
          [.addMembers])) := by
  constructor
  · intro env ctx args gi hgi hcode howner
    rw [executeCommand_owner_dispatch env _ ctx gi hgi hcode howner]
    simp [executeAddMemberCommand]
  · intro env ctx args ids gi resp hgi hcode howner hids hadd hrcode
    rw [executeCommand_owner_dispatch env _ ctx gi hgi hcode howner]
    have hlen : ¬ids.length = 0 := by simpa using hids
    by_cases hinv : 0 < (resp.invalid_id_list.getD []).length ∨
        0 < (resp.not_existed_id_list.getD []).length
    · simp [executeAddMemberCommand, hlen, addMembersToGroup, hadd, hrcode, addInvalidNote,
        hinv, add_pos_iff]
    · simp [executeAddMemberCommand, hlen, addMembersToGroup, hadd, hrcode, addInvalidNote,
        hinv, add_pos_iff]

/-- Concrete environment for witnesses: sender `ou_owner` is the owner, the
add-members call succeeds with one rejected id. -/
def envAddOneInvalid : ApiEnv :=
  { getGroupInfoT := .ok giOwner,
    getManagersT := .ok mgAdminOnly,
    addMembersT := .ok addOkOneInvalid,
    removeMembersT := .ok removeOkClean,
    updateGroupAnnouncementR := { success := true, error := none },
    getGroupMembersR := { members := [], error := none } }

theorem executeCommand_add_member_spec_witness :
    executeCommand envAddOneInvalid
      { type := .add_member, args := "", mentionedUserIds := [] }
      { chatId := "oc_chat", senderId := "ou_owner" } =
      ({ success := false, message := "请@要拉入群聊的用户。用法：/拉人 @用户1 @用户2" },
       []) ∧
    executeCommand envAddOneInvalid
      { type := .add_member, args := "", mentionedUserIds := ["ou_a", "ou_b"] }
      { chatId := "oc_chat", senderId := "ou_owner" } =
      ({ success := true, message := "已拉入 2 个用户（1 个用户无效或已在群内）" },
       [.addMembers]) :=
  ⟨executeCommand_add_member_spec.1 _ _ "" giOwner rfl rfl rfl,
   executeCommand_add_member_spec.2 _ _ "" ["ou_a", "ou_b"] giOwner addOkOneInvalid
     rfl rfl rfl (by decide) rfl rfl⟩

/-- Result record of `sendFeishuMessage` of `api.ts`. -/
structure SendResult where
  messageId : Option String
  success : Bool
  error : Option String
deriving DecidableEq

/-- One outcome of `Promise.allSettled`: a fulfilled value or a rejection
reason (already stringified, as `String(result.reason)` does). -/
inductive Settled (α : Type) where
  | fulfilled (value : α)
  | rejected (reason : String)
deriving DecidableEq

/-- Result record of `broadcastToGroups` of `api.ts`. -/
structure BroadcastResult where
  successCount : Nat
  failedCount : Nat
  errors : List String
deriving DecidableEq

/-- The aggregation loop body of `broadcastToGroups`: one destination's
settled outcome updates the counters and, on failure, appends the
`"<destination>: <error>"` entry. -/
def broadcastStep (send : String → Settled SendResult) (acc : BroadcastResult)
    (chatId : String) : BroadcastResult :=
  match send chatId with
  | .fulfilled v =>
    if v.success then { acc with successCount := acc.successCount + 1 }
    else { acc with failedCount := acc.failedCount + 1,
                    errors := acc.errors ++ [chatId ++ ": " ++ (v.error.getD "Unknown error")] }
  | .rejected reason =>
    { acc with failedCount := acc.failedCount + 1,
               errors := acc.errors ++ [chatId ++ ": " ++ reason] }

/-- `broadcastToGroups` of `api.ts`: every destination is sent to
independently (`send` gives each destination's own settled outcome —
`Promise.allSettled` never lets one rejection cancel the others), and the
aggregation loop pairs `results[i]` with `groupIds[i]`, which is pointwise
`send` applied to each destination in order. -/
def broadcastToGroups (groupIds : List String) (send : String → Settled SendResult) :
    BroadcastResult :=
  groupIds.foldl (broadcastStep send) { successCount := 0, failedCount := 0, errors := [] }

/-- Whether a destination's settled outcome counts as a successful send. -/
def sendOk (s : Settled SendResult) : Bool :=
  match s with
  | .fulfilled v => v.success
  | .rejected _ => false

/-- The error text `broadcastToGroups` reports for a failed outcome. -/
def sendErrMsg (s : Settled SendResult) : String :=
  match s with
  | .fulfilled v => v.error.getD "Unknown error"
  | .rejected reason => reason

theorem broadcast_foldl_spec (send : String → Settled SendResult) :
    ∀ (l : List String) (acc : BroadcastResult),
      l.foldl (broadcastStep send) acc =
        { successCount := acc.successCount + (l.filter (fun g => sendOk (send g))).length,
          failedCount := acc.failedCount + (l.filter (fun g => !(sendOk (send g)))).length,
          errors := acc.errors ++
            (l.filter (fun g => !(sendOk (send g)))).map
              (fun g => g ++ ": " ++ sendErrMsg (send g)) } := by
  intro l
  induction l with
  | nil => intro acc; simp
  | cons g rest ih =>
    intro acc
    rw [List.foldl_cons, ih]
    unfold broadcastStep sendOk sendErrMsg
    cases hg : send g with
    | fulfilled v =>
      by_cases hv : v.success = true
      · simp [hg, hv, List.filter_cons, Nat.add_assoc, Nat.add_comm, Nat.add_left_comm]
      · simp [hg, hv, List.filter_cons, Nat.add_assoc, Nat.add_comm, Nat.add_left_comm]
    | rejected reason =>
      simp [hg, List.filter_cons, Nat.add_assoc, Nat.add_comm, Nat.add_left_comm]

/-- Destination outcomes for the claim's concrete example: only `B` fails
(with a rejected promise). -/
def demoSend : String → Settled SendResult :=
  fun g =>
    if g == "B" then .rejected "connection reset"
    else .fulfilled { messageId := some "om_1", success := true, error := none }

/-- C7: `broadcastToGroups` sends to every destination independently and
returns `successCount` = number of successful sends, `failedCount` = number
of failed sends, and one `"<destination>: <error>"` entry per failed
destination, in order; broadcasting to `[A, B, C]` where only `B` fails
yields `successCount = 2`, `failedCount = 1`, and exactly one error entry
referencing `B`. -/
theorem broadcastToGroups_spec :
    (∀ (groupIds : List String) (send : String → Settled SendResult),
       broadcastToGroups groupIds send =
         { successCount := (groupIds.filter (fun g => sendOk (send g))).length,
           failedCount := (groupIds.filter (fun g => !(sendOk (send g)))).length,
           errors := (groupIds.filter (fun g => !(sendOk (send g)))).map
             (fun g => g ++ ": " ++ sendErrMsg (send g)) }) ∧
    broadcastToGroups ["A", "B", "C"] demoSend =
      { successCount := 2, failedCount := 1, errors := ["B: connection reset"] } := by
  constructor
  · intro groupIds send
    unfold broadcastToGroups
    rw [broadcast_foldl_spec]
    simp
  · decide

/-- The `activeClients` map of `monitor.ts`: client key to a (numbered)
live WebSocket client. -/
abbrev ActiveClients := List (String × Nat)

/-- The client key `monitorFeishuProvider` uses for an account handle. -/
def clientKeyOf (accountId appId : String) : String :=
  accountId ++ ":" ++ appId

/-- `monitorFeishuProvider` of `monitor.ts`, restricted to its connection
registry effects: fail fast on missing credentials (`throw`, modelled as
`Except.error`); if a live client exists under the handle's key, stop it
(recorded in the returned stopped-clients list) and remove it; then create
the fresh client `newClient` and register it.  Event-dispatcher wiring and
the returned monitor object carry no registry state and are not modelled. -/
def monitorFeishuProvider (accountId : String) (appId appSecret : Option String)
    (newClient : Nat) (activeClients : ActiveClients) :
    Except String (ActiveClients × List Nat) :=
  if !(optStrTruthy appId) || !(optStrTruthy appSecret) then
    Except.error "Feishu appId and appSecret are required"
  else
    let clientKey := accountId ++ ":" ++ jsShowOptStr appId
    match mapGet activeClients clientKey with
    | some existingClient =>
      Except.ok (mapSet (mapDelete activeClients clientKey) clientKey newClient,
        [existingClient])
    | none =>
      Except.ok (mapSet activeClients clientKey newClient, [])

theorem filter_mapDelete_key (m : List (String × Nat)) (k : String) :
    (mapDelete m k).filter (fun e => e.1 == k) = [] := by
  unfold mapDelete
  induction m with
  | nil => rfl
  | cons a rest ih =>
    by_cases ha : a.1 == k
    · simp [ha, ih]
    · simp [ha, ih]

theorem hasKey_mapDelete (m : List (String × Nat)) (k : String) :
    hasKey (mapDelete m k) k = false := by
  unfold hasKey mapDelete
  induction m with
  | nil => rfl
  | cons a rest ih =>
    by_cases ha : a.1 == k
    · simp [ha, ih]
    · simp [ha, ih]

theorem mapSet_mapDelete_filter (m : List (String × Nat)) (k : String) (v : Nat) :
    (mapSet (mapDelete m k) k v).filter (fun e => e.1 == k) = [(k, v)] := by
  unfold mapSet
  rw [hasKey_mapDelete]
  simp only [Bool.false_eq_true, if_false, ite_false, List.filter_append,
    filter_mapDelete_key]
  simp

/-- C8: when `monitorFeishuProvider` is invoked for an account handle that
already has a live client, that client is stopped and removed, the fresh
client is registered, and afterwards exactly one live client is registered
under the handle's key — and it is the fresh one. -/
theorem monitorFeishuProvider_idempotent_restart
    (accountId appId appSecret : String)
    (hApp : appId ≠ "") (hSecret : appSecret ≠ "")
    (activeClients : ActiveClients) (newClient existingClient : Nat)
    (hlive : mapGet activeClients (clientKeyOf accountId appId) = some existingClient) :
    monitorFeishuProvider accountId (some appId) (some appSecret) newClient activeClients =
      Except.ok
        (mapSet (mapDelete activeClients (clientKeyOf accountId appId))
          (clientKeyOf accountId appId) newClient,
         [existingClient]) ∧
    ((mapSet (mapDelete activeClients (clientKeyOf accountId appId))
        (clientKeyOf accountId appId) newClient).filter
      (fun e => e.1 == clientKeyOf accountId appId)).length = 1 ∧
    mapGet
      (mapSet (mapDelete activeClients (clientKeyOf accountId appId))
        (clientKeyOf accountId appId) newClient)
      (clientKeyOf accountId appId) = some newClient := by
  have hApp2 : (appId == "") = false := by simpa using hApp
  have hSec2 : (appSecret == "") = false := by simpa using hSecret
  have hlive2 : mapGet activeClients (accountId ++ ":" ++ appId) = some existingClient := hlive
  refine ⟨?_, ?_, ?_⟩
  · unfold monitorFeishuProvider
    simp only [optStrTruthy, jsShowOptStr, hApp2, hSec2, Bool.not_false, Bool.or_self,
      Bool.false_eq_true, if_false, ite_false]
    rw [hlive2]
    simp [clientKeyOf]
  · rw [mapSet_mapDelete_filter]
    rfl
  · have hnone : (mapDelete activeClients (clientKeyOf accountId appId)).find?
        (fun e => e.1 == clientKeyOf accountId appId) = none := by
      rw [List.find?_eq_none]
      intro x hx hpx
      have := hasKey_mapDelete activeClients (clientKeyOf accountId appId)
      unfold hasKey at this
      rw [List.any_eq_false] at this
      exact this x hx hpx
    have hset : mapSet (mapDelete activeClients (clientKeyOf accountId appId))
        (clientKeyOf accountId appId) newClient =
        mapDelete activeClients (clientKeyOf accountId appId) ++
          [(clientKeyOf accountId appId, newClient)] := by
      unfold mapSet
      rw [hasKey_mapDelete]
      simp
    unfold mapGet
    rw [hset, List.find?_append, hnone]
    simp

theorem monitorFeishuProvider_idempotent_restart_witness :
    monitorFeishuProvider "acc" (some "app1") (some "sec") 9 [("acc:app1", 7)] =
      Except.ok
        (mapSet (mapDelete [("acc:app1", 7)] (clientKeyOf "acc" "app1"))
          (clientKeyOf "acc" "app1") 9,
         [7]) ∧
    ((mapSet (mapDelete [("acc:app1", 7)] (clientKeyOf "acc" "app1"))
        (clientKeyOf "acc" "app1") 9).filter
      (fun e => e.1 == clientKeyOf "acc" "app1")).length = 1 ∧
    mapGet
      (mapSet (mapDelete [("acc:app1", 7)] (clientKeyOf "acc" "app1"))
        (clientKeyOf "acc" "app1") 9)
      (clientKeyOf "acc" "app1") = some 9 :=
  monitorFeishuProvider_idempotent_restart "acc" "app1" "sec" (by decide) (by decide)
    [("acc:app1", 7)] 9 7 (by decide)

end MoltbotFeishu
